import Mathlib

/-!
Verification of the ledger-cli protocol layer (ryankurte/ledger-rs).

The repository's `src/ledger-cli/src/main.rs` contains the exchange
orchestrator (`execute`), the command constants and the transport dispatch
(`main`).  The APDU codec (`APDUCommand`, `APDUAnswer`, `APDUErrorCode`)
and the three response decoders (`DeviceInfo`, `AppInfo`, `Version`) live
in sibling crates of the same repository that are not present under
`src/`; those are modelled from the specification, each marked
`Modelled from the spec:` in its doc comment.  Machine bytes are
naturals (values below 256 where relevant); fallible operations return
`Except`.
-/

namespace LedgerCli

/-- A wire byte, represented as a natural number. -/
abbrev Byte := Nat

/-- Modelled from the spec: encoding failure of the frame codec
(`ledger-transport` is not under `src/`) — the payload is too large to
frame (its length does not fit in the one length byte). -/
inductive EncodeError where
  | payloadTooLarge
deriving DecidableEq, Repr

/-- Modelled from the spec: decode failure of `APDUAnswer` construction —
the raw response is shorter than the two status bytes. -/
inductive APDUError where
  | truncatedResponse
deriving DecidableEq, Repr

/-- Modelled from the spec: failure of a response decoder — the payload is
inconsistent with the expected record layout. -/
inductive DecodeError where
  | malformed
deriving DecidableEq, Repr

/-- Modelled from the spec: an opaque transport failure; the core never
inspects it beyond propagating it. -/
structure TransportError where
  code : Nat
deriving DecidableEq, Repr

/-- Modelled from the spec: the APDU command frame of `ledger-transport`
(not under `src/`): class byte, instruction byte, two parameter bytes and
a data payload. -/
structure APDUCommand where
  cla : Byte
  ins : Byte
  p1 : Byte
  p2 : Byte
  data : List Byte
deriving DecidableEq, Repr

/-- Modelled from the spec: `APDUCommand::new(cla, ins)` — parameter bytes
fixed at zero, empty payload. -/
def APDUCommand.new (cla ins : Byte) : APDUCommand :=
  ⟨cla, ins, 0, 0, []⟩

/-- Modelled from the spec: frame codec `encode` — the wire form is
class byte, instruction byte, the two parameter bytes, one length byte,
then the payload; a payload longer than 255 bytes fails with an
encoding error rather than silently truncating. -/
def APDUCommand.serialize (c : APDUCommand) : Except EncodeError (List Byte) :=
  if c.data.length ≤ 255 then
    .ok ([c.cla, c.ins, c.p1, c.p2, c.data.length] ++ c.data)
  else
    .error .payloadTooLarge

/-- Modelled from the spec: decoding a frame built in the command wire
format — reads class, instruction, the two parameter bytes and the length
byte, and requires the remaining bytes to match the declared length.
Written from the spec's wire-format words, to be compared with
`APDUCommand.serialize` in the round-trip law. -/
def decodeCommandFrame (bs : List Byte) : Option (Byte × Byte × List Byte) :=
  match bs with
  | cla :: ins :: _p1 :: _p2 :: len :: rest =>
    if rest.length = len then some (cla, ins, rest) else none
  | _ => none

/-- The status word taken from the trailing two bytes of a raw response,
big-endian. -/
def statusOf (raw : List Byte) : Nat :=
  256 * raw.getD (raw.length - 2) 0 + raw.getD (raw.length - 1) 0

/-- Modelled from the spec: a decoded raw response of `ledger-transport`
(not under `src/`) — payload bytes plus the two-byte status word. -/
structure APDUAnswer where
  data : List Byte
  retcode : Nat
deriving DecidableEq, Repr

/-- Modelled from the spec: `APDUAnswer::try_from` — fails with
`TruncatedResponse` when the raw response is shorter than 2 bytes,
otherwise splits the trailing two bytes (big-endian) as the status and
the remainder as the payload. -/
def APDUAnswer.fromBytes (raw : List Byte) : Except APDUError APDUAnswer :=
  if raw.length < 2 then
    .error .truncatedResponse
  else
    .ok ⟨raw.take (raw.length - 2), statusOf raw⟩

/-- Modelled from the spec: the APDU status codes with symbolic names in
`ledger-transport` (not under `src/`): the success code `0x9000` plus the
named device error codes; every other value is an unrecognized code kept
as its raw number. -/
def knownCodes : List Nat :=
  [0x9000, 0x6400, 0x6700, 0x6982, 0x6983, 0x6984, 0x6985, 0x6986,
   0x6A80, 0x6A82, 0x6A84, 0x6A86, 0x6A87, 0x6B00, 0x6D00, 0x6E00,
   0x6E01, 0x6F00, 0x6F01]

/-- Modelled from the spec: the recognized status values. `noError` is the
single success value; `known` carries a recognized non-success code. -/
inductive APDUErrorCode where
  | noError
  | known (code : Nat)
deriving DecidableEq, Repr

/-- Modelled from the spec: `APDUAnswer::error_code` — a recognized status
word maps to its symbolic value (`Ok`), an unrecognized one is returned
as its raw number (`Err`). -/
def errorCode (ret : Nat) : Except Nat APDUErrorCode :=
  if ret = 0x9000 then .ok .noError
  else if ret ∈ knownCodes then .ok (.known ret)
  else .error ret

/-- Reads one length-prefixed field: a length byte followed by that many
bytes; fails when the declared length exceeds the remaining bytes. -/
def readLenField (bs : List Byte) : Option (List Byte × List Byte) :=
  match bs with
  | n :: rest => if n ≤ rest.length then some (rest.take n, rest.drop n) else none
  | [] => none

/-- Reads `n` length-prefixed fields in order, failing when any length
byte is missing or any declared length exceeds the remaining bytes. -/
def readFields : Nat → List Byte → Option (List (List Byte))
  | 0, _ => some []
  | n + 1, bs => (readLenField bs).bind fun q => (readFields n q.2).map (q.1 :: ·)

/-- Modelled from the spec: the device-info record of
`ledger-zondax-generic` (not under `src/`) — target identification bytes
plus length-prefixed firmware/hardware identifier fields. -/
structure DeviceInfo where
  targetId : List Byte
  seVersion : List Byte
  flags : List Byte
  mcuVersion : List Byte
deriving DecidableEq, Repr

/-- Modelled from the spec: `DeviceInfo::try_from` — a fixed 4-byte target
identifier followed by three length-prefixed fields; any truncation or a
declared sub-field length exceeding the remaining bytes is `Malformed`. -/
def DeviceInfo.tryFrom (p : List Byte) : Except DecodeError DeviceInfo :=
  match p with
  | a :: b :: c :: d :: rest =>
    match readFields 3 rest with
    | some [se, fl, mcu] => .ok ⟨[a, b, c, d], se, fl, mcu⟩
    | _ => .error .malformed
  | _ => .error .malformed

/-- Modelled from the spec: the app-info record of
`ledger-zondax-generic` (not under `src/`) — application name, version
string and flags. -/
structure AppInfo where
  appName : List Byte
  appVersion : List Byte
  flags : List Byte
deriving DecidableEq, Repr

/-- Modelled from the spec: `AppInfo::try_from` — name, version string and
flags read in fixed order, each preceded by its own length byte; any
truncation is `Malformed`. -/
def AppInfo.tryFrom (p : List Byte) : Except DecodeError AppInfo :=
  match readFields 3 p with
  | some [name, ver, fl] => .ok ⟨name, ver, fl⟩
  | _ => .error .malformed

/-- Modelled from the spec: the app-version record of
`ledger-zondax-generic` (not under `src/`) — major/minor/patch components
plus an optional flag byte. -/
structure Version where
  major : Byte
  minor : Byte
  patch : Byte
  flag : Option Byte
deriving DecidableEq, Repr

/-- Modelled from the spec: `Version::try_from` — a compact three-component
version (major, minor, patch) plus an optional flag byte; a payload below
the three required components is `Malformed`. -/
def Version.tryFrom (p : List Byte) : Except DecodeError Version :=
  match p with
  | ma :: mi :: pa :: rest => .ok ⟨ma, mi, pa, rest.head?⟩
  | _ => .error .malformed

/-- The minimum payload length the device-info decoder accepts: four
target-identifier bytes plus three field length bytes. -/
def deviceInfoMinLen : Nat := 7

/-- The minimum payload length the app-info decoder accepts: three field
length bytes. -/
def appInfoMinLen : Nat := 3

/-- The minimum payload length the version decoder accepts: the three
version components. -/
def versionMinLen : Nat := 3

/-- The logical commands of `main.rs` (`Commands`): `DeviceInfo`,
`AppInfo`, `AppVersion { cla }`. -/
inductive Commands where
  | deviceInfo
  | appInfo
  | appVersion (cla : Byte)
deriving DecidableEq, Repr

/-- The typed response record produced by a successful exchange: one of
the three decoder results. -/
inductive Record where
  | device (d : DeviceInfo)
  | app (a : AppInfo)
  | version (v : Version)
deriving DecidableEq, Repr

/-- The error taxonomy of the exchange orchestrator. In `main.rs` the
three failure arms all produce terminal `anyhow` errors; here each is a
tagged value.  The source's "unhandled APDU response" (recognized
non-success code) and "unknown APDU response" (unrecognized code) arms
both carry the raw status word, modelled as `deviceError`. -/
inductive ProtocolError where
  | encoding
  | transport (e : TransportError)
  | truncated
  | deviceError (status : Nat)
  | decode (e : DecodeError)
deriving DecidableEq, Repr

/-- The command-constant table of `main.rs` lines 82–86 and the Build step
of `execute` lines 95–100: `DeviceInfo ↦ APDUCommand::new(0xE0, 0x01)`,
`AppInfo ↦ APDUCommand::new(0xB0, 0x01)`,
`AppVersion{cla} ↦ APDUCommand::new(cla, 0x00)`. -/
def buildCommand : Commands → APDUCommand
  | .deviceInfo => APDUCommand.new 0xE0 0x01
  | .appInfo => APDUCommand.new 0xB0 0x01
  | .appVersion cla => APDUCommand.new cla 0x00

/-- The Decode step of `execute` lines 114–128: dispatch the payload to
the decoder matching the original command variant. -/
def decodeFor : Commands → List Byte → Except DecodeError Record
  | .deviceInfo, p => (DeviceInfo.tryFrom p).map .device
  | .appInfo, p => (AppInfo.tryFrom p).map .app
  | .appVersion _, p => (Version.tryFrom p).map .version

/-- The exchange orchestrator, `execute` of `main.rs` lines 89–131: build
the frame, invoke the transport on the encoded frame, decode the raw
response, check the status word (mirroring the source's three-arm match
on `error_code()`), then dispatch to the matching decoder.  The transport
is the abstract collaborator: encoded frame bytes in, raw response bytes
out or a transport failure. -/
def execute (t : List Byte → Except TransportError (List Byte))
    (cmd : Commands) : Except ProtocolError Record :=
  match (buildCommand cmd).serialize with
  | .error _ => .error .encoding
  | .ok frame =>
    match t frame with
    | .error e => .error (.transport e)
    | .ok raw =>
      match APDUAnswer.fromBytes raw with
      | .error _ => .error .truncated
      | .ok ans =>
        match errorCode ans.retcode with
        | .ok .noError =>
          match decodeFor cmd ans.data with
          | .ok r => .ok r
          | .error e => .error (.decode e)
        | .ok (.known c) => .error (.deviceError c)
        | .error c => .error (.deviceError c)

/-- The four sequential steps of one orchestrator call. -/
inductive Step where
  | build
  | send
  | validate
  | decode
deriving DecidableEq, Repr

/-- `execute` instrumented with the list of steps reached, in order: the
trace stops at the first failing step.  The result component agrees with
`execute` (proved below). -/
def executeTrace (t : List Byte → Except TransportError (List Byte))
    (cmd : Commands) : Except ProtocolError Record × List Step :=
  match (buildCommand cmd).serialize with
  | .error _ => (.error .encoding, [.build])
  | .ok frame =>
    match t frame with
    | .error e => (.error (.transport e), [.build, .send])
    | .ok raw =>
      match APDUAnswer.fromBytes raw with
      | .error _ => (.error .truncated, [.build, .send, .validate])
      | .ok ans =>
        match errorCode ans.retcode with
        | .ok .noError =>
          (match decodeFor cmd ans.data with
           | .ok r => .ok r
           | .error e => .error (.decode e),
           [.build, .send, .validate, .decode])
        | .ok (.known c) => (.error (.deviceError c), [.build, .send, .validate])
        | .error c => (.error (.deviceError c), [.build, .send, .validate])

/-- The transport kinds of `main.rs` (`Transport`): USB HID, Bluetooth
Low Energy, TCP (which carries the command), and the Zemu simulator. -/
inductive TransportKind where
  | hid
  | ble
  | tcp (cmd : Commands)
  | zemu
deriving DecidableEq, Repr

/-- The observable outcome of `main`'s transport dispatch: either the
command was executed over the connected transport, or the program stopped
at the explicit `todo!("{} transport not yet implemented")` arm, which
aborts with a not-implemented report naming the transport. -/
inductive MainOutcome where
  | executed (r : Except ProtocolError Record)
  | notImplemented (k : TransportKind)
deriving Repr

/-- The transport dispatch of `main` (`main.rs` lines 66–73): the `Tcp`
arm connects and runs `execute`; every other arm hits the explicit
`todo!` not-implemented report. -/
def mainDispatch (t : List Byte → Except TransportError (List Byte)) :
    TransportKind → MainOutcome
  | .tcp cmd => .executed (execute t cmd)
  | .hid => .notImplemented .hid
  | .ble => .notImplemented .ble
  | .zemu => .notImplemented .zemu

/-- Whether a main outcome actually executed a command. -/
def MainOutcome.isExecuted : MainOutcome → Bool
  | .executed _ => true
  | .notImplemented _ => false

/-- The encoded frame bytes of each logical command. -/
def frameBytes : Commands → List Byte
  | .deviceInfo => [0xE0, 0x01, 0, 0, 0]
  | .appInfo => [0xB0, 0x01, 0, 0, 0]
  | .appVersion cla => [cla, 0x00, 0, 0, 0]

theorem serialize_buildCommand (cmd : Commands) :
    (buildCommand cmd).serialize = .ok (frameBytes cmd) := by
  cases cmd <;> rfl

theorem readLenField_length {bs xs r : List Byte}
    (h : readLenField bs = some (xs, r)) : r.length + 1 ≤ bs.length := by
  cases bs with
  | nil => simp [readLenField] at h
  | cons n rest =>
    by_cases hn : n ≤ rest.length
    · simp only [readLenField, if_pos hn, Option.some.injEq, Prod.mk.injEq] at h
      rw [← h.2, List.length_drop, List.length_cons]
      omega
    · simp [readLenField, if_neg hn] at h

theorem readFields_length {n : Nat} {bs : List Byte} {l : List (List Byte)}
    (h : readFields n bs = some l) : n ≤ bs.length := by
  induction n generalizing bs l with
  | zero => omega
  | succ m ih =>
    simp only [readFields] at h
    rcases h1 : readLenField bs with _ | ⟨x, r⟩
    · rw [h1] at h; simp at h
    · rw [h1] at h
      simp only [Option.some_bind, Option.map_eq_some'] at h
      obtain ⟨l2, hl2, -⟩ := h
      have := readLenField_length h1
      have := ih hl2
      omega

theorem deviceInfo_ok_length {p : List Byte} {v : DeviceInfo}
    (h : DeviceInfo.tryFrom p = .ok v) : deviceInfoMinLen ≤ p.length := by
  rcases p with _ | ⟨a, _ | ⟨b, _ | ⟨c, _ | ⟨d, rest⟩⟩⟩⟩
  · simp [DeviceInfo.tryFrom] at h
  · simp [DeviceInfo.tryFrom] at h
  · simp [DeviceInfo.tryFrom] at h
  · simp [DeviceInfo.tryFrom] at h
  · simp only [DeviceInfo.tryFrom] at h
    rcases hf : readFields 3 rest with _ | l
    · rw [hf] at h; simp at h
    · have := readFields_length hf
      simp only [deviceInfoMinLen, List.length_cons]
      omega

theorem appInfo_ok_length {p : List Byte} {v : AppInfo}
    (h : AppInfo.tryFrom p = .ok v) : appInfoMinLen ≤ p.length := by
  simp only [AppInfo.tryFrom] at h
  rcases hf : readFields 3 p with _ | l
  · rw [hf] at h; simp at h
  · have := readFields_length hf
    simp only [appInfoMinLen]
    omega

theorem version_ok_length {p : List Byte} {v : Version}
    (h : Version.tryFrom p = .ok v) : versionMinLen ≤ p.length := by
  rcases p with _ | ⟨a, _ | ⟨b, _ | ⟨c, rest⟩⟩⟩
  · simp [Version.tryFrom] at h
  · simp [Version.tryFrom] at h
  · simp [Version.tryFrom] at h
  · simp [versionMinLen, List.length_cons]

theorem fromBytes_of_ge_two {raw : List Byte} (h : 2 ≤ raw.length) :
    APDUAnswer.fromBytes raw = .ok ⟨raw.take (raw.length - 2), statusOf raw⟩ := by
  unfold APDUAnswer.fromBytes
  rw [if_neg (by omega)]

/-- C1: whenever the transport returns a raw response whose status word
(the trailing two bytes, big-endian) is not the success code `0x9000` —
recognized APDU error or unrecognized numeric value alike — `execute`
returns the device-error failure carrying that status, and the trace
never reaches the decode step: no response decoder is invoked. -/
theorem exchange_nonsuccess_status (cmd : Commands) (raw : List Byte)
    (hlen : 2 ≤ raw.length) (hs : statusOf raw ≠ 0x9000) :
    execute (fun _ => .ok raw) cmd = .error (.deviceError (statusOf raw))
    ∧ Step.decode ∉ (executeTrace (fun _ => .ok raw) cmd).2 := by
  have hfb := fromBytes_of_ge_two hlen
  by_cases hmem : statusOf raw ∈ knownCodes
  · have hec : errorCode (statusOf raw) = .ok (.known (statusOf raw)) := by
      unfold errorCode; rw [if_neg hs, if_pos hmem]
    constructor
    · simp [execute, serialize_buildCommand, hfb, hec]
    · simp [executeTrace, serialize_buildCommand, hfb, hec]
  · have hec : errorCode (statusOf raw) = .error (statusOf raw) := by
      unfold errorCode; rw [if_neg hs, if_neg hmem]
    constructor
    · simp [execute, serialize_buildCommand, hfb, hec]
    · simp [executeTrace, serialize_buildCommand, hfb, hec]

/-- Witness for C1 at the spec's scenario: the raw response `[0x6A, 0x82]`
yields the device error carrying status `0x6A82` and the decode step is
never reached. -/
theorem exchange_nonsuccess_status_witness :
    execute (fun _ => .ok [0x6A, 0x82]) (.appVersion 0xB0)
        = .error (.deviceError 0x6A82)
    ∧ Step.decode ∉ (executeTrace (fun _ => .ok [0x6A, 0x82]) (.appVersion 0xB0)).2 := by
  have h := exchange_nonsuccess_status (.appVersion 0xB0) [0x6A, 0x82]
    (by decide) (by decide)
  simpa [statusOf] using h

/-- C2: the logical command `AppVersion{cla := 0xB0}` with a transport
returning `[0x01, 0x02, 0x03, 0x90, 0x00]` (payload `01 02 03`, success
status `0x9000`) succeeds with a version record with major 1, minor 2,
patch 3. -/
theorem appversion_success_scenario :
    execute (fun _ => .ok [0x01, 0x02, 0x03, 0x90, 0x00]) (.appVersion 0xB0)
      = .ok (.version ⟨1, 2, 3, none⟩) := rfl

/-- C3: every payload shorter than a decoder's minimum required length is
rejected with `DecodeError.malformed` by that decoder (device info,
app info and app version).  Each decoder is a total function into
`Except DecodeError`, so every failure path is this typed error and no
input can panic or be accepted as a truncated record. -/
theorem decoders_reject_short (p : List Byte) :
    (p.length < deviceInfoMinLen → DeviceInfo.tryFrom p = .error .malformed)
    ∧ (p.length < appInfoMinLen → AppInfo.tryFrom p = .error .malformed)
    ∧ (p.length < versionMinLen → Version.tryFrom p = .error .malformed) := by
  refine ⟨fun h => ?_, fun h => ?_, fun h => ?_⟩
  · rcases he : DeviceInfo.tryFrom p with e | v
    · cases e; rfl
    · exact absurd (deviceInfo_ok_length he) (by omega)
  · rcases he : AppInfo.tryFrom p with e | v
    · cases e; rfl
    · exact absurd (appInfo_ok_length he) (by omega)
  · rcases he : Version.tryFrom p with e | v
    · cases e; rfl
    · exact absurd (version_ok_length he) (by omega)

/-- Witness for C3: concrete short payloads for each decoder. -/
theorem decoders_reject_short_witness :
    DeviceInfo.tryFrom [0, 0, 0, 0, 0, 0] = .error .malformed
    ∧ AppInfo.tryFrom [] = .error .malformed
    ∧ Version.tryFrom [1, 2] = .error .malformed :=
  ⟨(decoders_reject_short [0, 0, 0, 0, 0, 0]).1 (by decide),
   (decoders_reject_short []).2.1 (by decide),
   (decoders_reject_short [1, 2]).2.2 (by decide)⟩

/-- C4: a raw response of length 0 or 1 fails to decode with
`truncatedResponse`; a raw response of length exactly 2 decodes to an
empty payload with the status being the big-endian value of the two
bytes. -/
theorem answer_decode_boundary (raw : List Byte) :
    (raw.length < 2 → APDUAnswer.fromBytes raw = .error .truncatedResponse)
    ∧ (∀ a b : Byte, raw = [a, b] →
        APDUAnswer.fromBytes raw = .ok ⟨[], 256 * a + b⟩) := by
  constructor
  · intro h
    unfold APDUAnswer.fromBytes
    rw [if_pos h]
  · rintro a b rfl
    rfl

/-- Witness for C4: a one-byte response is truncated; `[0x6A, 0x82]`
decodes to the empty payload with status `256 * 0x6A + 0x82 = 0x6A82`. -/
theorem answer_decode_boundary_witness :
    APDUAnswer.fromBytes [0x90] = .error .truncatedResponse
    ∧ APDUAnswer.fromBytes [0x6A, 0x82] = .ok ⟨[], 256 * 0x6A + 0x82⟩ :=
  ⟨(answer_decode_boundary [0x90]).1 (by decide),
   (answer_decode_boundary [0x6A, 0x82]).2 0x6A 0x82 rfl⟩

/-- C5: for every class byte, instruction byte and payload of at most 255
bytes, encoding the command frame succeeds and decoding a frame built in
the same wire format recovers the original class, instruction and
payload exactly. -/
theorem frame_roundtrip (cla ins : Byte) (payload : List Byte)
    (h : payload.length ≤ 255) :
    (APDUCommand.mk cla ins 0 0 payload).serialize
        = .ok ([cla, ins, 0, 0, payload.length] ++ payload)
    ∧ decodeCommandFrame ([cla, ins, 0, 0, payload.length] ++ payload)
        = some (cla, ins, payload) := by
  constructor
  · unfold APDUCommand.serialize
    rw [if_pos h]
  · simp [decodeCommandFrame]

/-- Witness for C5 at a concrete frame. -/
theorem frame_roundtrip_witness :
    (APDUCommand.mk 0xE0 0x01 0 0 [7, 8]).serialize
        = .ok [0xE0, 0x01, 0, 0, 2, 7, 8]
    ∧ decodeCommandFrame [0xE0, 0x01, 0, 0, 2, 7, 8]
        = some (0xE0, 0x01, [7, 8]) := by
  have h := frame_roundtrip 0xE0 0x01 [7, 8] (by decide)
  simpa using h

/-- C6: encoding succeeds for every payload of length at most 255 and
fails with the payload-too-large encoding error for a payload of length
256, rather than silently truncating. -/
theorem encode_payload_bound (cla ins : Byte) (payload : List Byte) :
    (payload.length ≤ 255 →
      (APDUCommand.mk cla ins 0 0 payload).serialize
        = .ok ([cla, ins, 0, 0, payload.length] ++ payload))
    ∧ (payload.length = 256 →
      (APDUCommand.mk cla ins 0 0 payload).serialize = .error .payloadTooLarge) := by
  constructor
  · intro h
    unfold APDUCommand.serialize
    rw [if_pos h]
  · intro h
    unfold APDUCommand.serialize
    rw [if_neg (show ¬(payload.length ≤ 255) by omega)]

/-- Witness for C6: a 255-byte payload encodes, a 256-byte payload is
rejected. -/
theorem encode_payload_bound_witness :
    (APDUCommand.mk 1 2 0 0 (List.replicate 255 0)).serialize
        = .ok ([1, 2, 0, 0, (List.replicate 255 0).length] ++ List.replicate 255 0)
    ∧ (APDUCommand.mk 1 2 0 0 (List.replicate 256 0)).serialize
        = .error .payloadTooLarge :=
  ⟨(encode_payload_bound 1 2 (List.replicate 255 0)).1
      (by have := List.length_replicate 255 (0 : Byte); omega),
   (encode_payload_bound 1 2 (List.replicate 256 0)).2
      (by have := List.length_replicate 256 (0 : Byte); omega)⟩

theorem executeTrace_transport_error {t : List Byte → Except TransportError (List Byte)}
    {cmd : Commands} {e : TransportError} (ht : t (frameBytes cmd) = .error e) :
    executeTrace t cmd = (.error (.transport e), [Step.build, Step.send]) := by
  simp [executeTrace, serialize_buildCommand, ht]

theorem executeTrace_truncated {t : List Byte → Except TransportError (List Byte)}
    {cmd : Commands} {raw : List Byte} (ht : t (frameBytes cmd) = .ok raw)
    (hr : raw.length < 2) :
    executeTrace t cmd = (.error .truncated, [Step.build, Step.send, Step.validate]) := by
  have hfb : APDUAnswer.fromBytes raw = .error .truncatedResponse := by
    unfold APDUAnswer.fromBytes; rw [if_pos hr]
  simp [executeTrace, serialize_buildCommand, ht, hfb]

theorem executeTrace_status_fail {t : List Byte → Except TransportError (List Byte)}
    {cmd : Commands} {raw : List Byte} (ht : t (frameBytes cmd) = .ok raw)
    (hr : 2 ≤ raw.length) (hs : statusOf raw ≠ 0x9000) :
    (executeTrace t cmd).2 = [Step.build, Step.send, Step.validate] := by
  have hfb := fromBytes_of_ge_two hr
  by_cases hmem : statusOf raw ∈ knownCodes
  · have hec : errorCode (statusOf raw) = .ok (.known (statusOf raw)) := by
      unfold errorCode; rw [if_neg hs, if_pos hmem]
    simp [executeTrace, serialize_buildCommand, ht, hfb, hec]
  · have hec : errorCode (statusOf raw) = .error (statusOf raw) := by
      unfold errorCode; rw [if_neg hs, if_neg hmem]
    simp [executeTrace, serialize_buildCommand, ht, hfb, hec]

theorem executeTrace_success_status {t : List Byte → Except TransportError (List Byte)}
    {cmd : Commands} {raw : List Byte} (ht : t (frameBytes cmd) = .ok raw)
    (hr : 2 ≤ raw.length) (hs : statusOf raw = 0x9000) :
    (executeTrace t cmd).2 = [Step.build, Step.send, Step.validate, Step.decode] := by
  have hfb := fromBytes_of_ge_two hr
  have hec : errorCode (statusOf raw) = .ok .noError := by
    unfold errorCode; rw [if_pos hs]
  simp [executeTrace, serialize_buildCommand, ht, hfb, hec]

theorem executeTrace_fst (t : List Byte → Except TransportError (List Byte))
    (cmd : Commands) : (executeTrace t cmd).1 = execute t cmd := by
  rcases ht : t (frameBytes cmd) with e | raw
  · simp [execute, executeTrace, serialize_buildCommand, ht]
  · by_cases hr : raw.length < 2
    · have hfb : APDUAnswer.fromBytes raw = .error .truncatedResponse := by
        unfold APDUAnswer.fromBytes; rw [if_pos hr]
      simp [execute, executeTrace, serialize_buildCommand, ht, hfb]
    · have hfb := fromBytes_of_ge_two (show 2 ≤ raw.length by omega)
      by_cases hs : statusOf raw = 0x9000
      · have hec : errorCode (statusOf raw) = .ok .noError := by
          unfold errorCode; rw [if_pos hs]
        simp [execute, executeTrace, serialize_buildCommand, ht, hfb, hec]
      · by_cases hmem : statusOf raw ∈ knownCodes
        · have hec : errorCode (statusOf raw) = .ok (.known (statusOf raw)) := by
            unfold errorCode; rw [if_neg hs, if_pos hmem]
          simp [execute, executeTrace, serialize_buildCommand, ht, hfb, hec]
        · have hec : errorCode (statusOf raw) = .error (statusOf raw) := by
            unfold errorCode; rw [if_neg hs, if_neg hmem]
          simp [execute, executeTrace, serialize_buildCommand, ht, hfb, hec]

theorem executeTrace_snd_cases (t : List Byte → Except TransportError (List Byte))
    (cmd : Commands) :
    (executeTrace t cmd).2 = [Step.build, Step.send]
    ∨ (executeTrace t cmd).2 = [Step.build, Step.send, Step.validate]
    ∨ (executeTrace t cmd).2 = [Step.build, Step.send, Step.validate, Step.decode] := by
  rcases ht : t (frameBytes cmd) with e | raw
  · exact .inl (by rw [executeTrace_transport_error ht])
  · by_cases hr : raw.length < 2
    · exact .inr (.inl (by rw [executeTrace_truncated ht hr]))
    · by_cases hs : statusOf raw = 0x9000
      · exact .inr (.inr (executeTrace_success_status ht (by omega) hs))
      · exact .inr (.inl (executeTrace_status_fail ht (by omega) hs))

/-- C7: one orchestrator call is a single linear pass.  The instrumented
run agrees with `execute`; the transport is invoked exactly once (the
send step occurs exactly once in every trace, so there is no retry on
any failure); the trace is always an initial segment of
build → send → validate → decode in that strict order; a transport error
ends the call right after send (no status validation, no decode); a
non-success status ends it right after validate (no decode). -/
theorem execute_single_pass (t : List Byte → Except TransportError (List Byte))
    (cmd : Commands) :
    (executeTrace t cmd).1 = execute t cmd
    ∧ ((executeTrace t cmd).2).count Step.send = 1
    ∧ (executeTrace t cmd).2 ∈
        [[Step.build, Step.send],
         [Step.build, Step.send, Step.validate],
         [Step.build, Step.send, Step.validate, Step.decode]]
    ∧ (∀ e, t (frameBytes cmd) = .error e →
        (executeTrace t cmd).2 = [Step.build, Step.send])
    ∧ (∀ raw, t (frameBytes cmd) = .ok raw → 2 ≤ raw.length →
        statusOf raw ≠ 0x9000 →
        (executeTrace t cmd).2 = [Step.build, Step.send, Step.validate]) := by
  refine ⟨executeTrace_fst t cmd, ?_, ?_, ?_, ?_⟩
  · rcases executeTrace_snd_cases t cmd with h | h | h <;> rw [h] <;> decide
  · rcases executeTrace_snd_cases t cmd with h | h | h <;> rw [h] <;> decide
  · intro e ht
    rw [executeTrace_transport_error ht]
  · intro raw ht h2 hs
    exact executeTrace_status_fail ht h2 hs

/-- Witness for C7: a failing transport stops the trace right after the
send step, and a non-success status stops it right after validation. -/
theorem execute_single_pass_witness :
    (executeTrace (fun _ => .error ⟨0⟩) .deviceInfo).2 = [Step.build, Step.send]
    ∧ (executeTrace (fun _ => .ok [0x6A, 0x82]) .appInfo).2
        = [Step.build, Step.send, Step.validate] :=
  ⟨(execute_single_pass (fun _ => .error ⟨0⟩) .deviceInfo).2.2.2.1 ⟨0⟩ rfl,
   (execute_single_pass (fun _ => .ok [0x6A, 0x82]) .appInfo).2.2.2.2
     [0x6A, 0x82] rfl (by decide) (by decide)⟩

/-- C8: the command table is static and total: `DeviceInfo` maps to the
frame with class `0xE0`, instruction `0x01` and empty payload and to the
device-info decoder; `AppInfo` to class `0xB0`, instruction `0x01`,
empty payload and the app-info decoder; `AppVersion{cla}` to class
`cla`, instruction `0x00`, empty payload and the version decoder; and
every command variant is one of these three, so none is left without a
frame and decoder. -/
theorem command_mapping_total (cla : Byte) (p : List Byte) :
    buildCommand .deviceInfo = ⟨0xE0, 0x01, 0, 0, []⟩
    ∧ buildCommand .appInfo = ⟨0xB0, 0x01, 0, 0, []⟩
    ∧ buildCommand (.appVersion cla) = ⟨cla, 0x00, 0, 0, []⟩
    ∧ decodeFor .deviceInfo p = (DeviceInfo.tryFrom p).map .device
    ∧ decodeFor .appInfo p = (AppInfo.tryFrom p).map .app
    ∧ decodeFor (.appVersion cla) p = (Version.tryFrom p).map .version
    ∧ (∀ cmd : Commands, cmd = .deviceInfo ∨ cmd = .appInfo
        ∨ ∃ c, cmd = .appVersion c) :=
  ⟨rfl, rfl, rfl, rfl, rfl, rfl, fun cmd => by
    cases cmd with
    | deviceInfo => exact .inl rfl
    | appInfo => exact .inr (.inl rfl)
    | appVersion c => exact .inr (.inr ⟨c, rfl⟩)⟩

/-- C9: each unimplemented transport kind (`Hid`, `Ble`, `Zemu`) takes
the explicit not-implemented arm of `main`'s dispatch, which names the
transport; none of them executes any command (no silent default to
another command or transport). -/
theorem unimplemented_transports_explicit
    (t : List Byte → Except TransportError (List Byte)) :
    mainDispatch t .hid = .notImplemented .hid
    ∧ mainDispatch t .ble = .notImplemented .ble
    ∧ mainDispatch t .zemu = .notImplemented .zemu
    ∧ (mainDispatch t .hid).isExecuted = false
    ∧ (mainDispatch t .ble).isExecuted = false
    ∧ (mainDispatch t .zemu).isExecuted = false :=
  ⟨rfl, rfl, rfl, rfl, rfl, rfl⟩

/-- C10: for the `AppVersion` command the class byte influences only the
encoded request frame: with the transport reply fixed (the same raw
bytes or the same transport error for any request), the exchange result
is identical for any two class bytes. -/
theorem appversion_cla_noninterference (a b : Byte)
    (r : Except TransportError (List Byte)) :
    execute (fun _ => r) (.appVersion a) = execute (fun _ => r) (.appVersion b)
    ∧ frameBytes (.appVersion a) = [a, 0x00, 0, 0, 0] :=
  ⟨rfl, rfl⟩

end LedgerCli
